import Mathlib

/-!
Verification of the playwriter recording relay and CLI against its
natural-language specification.

The definitions below are a shallow embedding of the TypeScript sources:

* `src/playwriter/src/recording-relay.ts` — the `RecordingRelay` class:
  chunk routing (`handleBinaryData`), the `recordingData` handler
  (`handleRecordingData`), cancellation, and the `stopRecording` /
  `isRecording` request methods.
* `src/extension-firefox/src/background.ts` — the extension side of the
  recording side channel: `MediaRecorder` handlers installed by
  `startRecordingFromPopup` and `flushRecordingChunkBuffer`.
* the CLI `serve` subcommand (option table, startup decision, exit codes).

Byte buffers are `List Nat`; the JS `Map` (insertion ordered) is an
association list; promise resolvers are explicit state plus emitted
results.
-/

namespace Playwriter

/-- Result shape of `stopRecording` (protocol `StopRecordingResult`). -/
structure StopRecordingResult where
  success : Bool
  tabId : Option Nat := none
  duration : Option Nat := none
  path : Option String := none
  size : Option Nat := none
  error : Option String := none
deriving Repr, DecidableEq

/-- Result shape of `isRecording` (protocol `IsRecordingResult`). -/
structure IsRecordingResult where
  isRecording : Bool
  tabId : Option Nat := none
  startedAt : Option Nat := none
deriving Repr, DecidableEq

/-- One entry of `RecordingRelay.activeRecordings` (interface
`ActiveRecording` in `recording-relay.ts`).  `resolveStop` records
whether the optional resolver callback is currently set. -/
structure ActiveRecording where
  tabId : Nat
  sessionId : Option String := none
  outputPath : String
  chunks : List (List Nat)
  startedAt : Nat
  resolveStop : Bool := false
deriving Repr, DecidableEq

/-- The JS `Map<number, ActiveRecording>`: an insertion-ordered
association list. -/
abbrev RecMap := List (Nat × ActiveRecording)

/-- JS `map.get(k)`. -/
def mapGet (m : RecMap) (k : Nat) : Option ActiveRecording :=
  (m.find? (fun p => p.1 = k)).map (·.2)

/-- JS `map.set(k, v)`: updates in place when the key exists, otherwise
appends (JS `Map` preserves insertion order). -/
def mapSet (m : RecMap) (k : Nat) (v : ActiveRecording) : RecMap :=
  if m.any (fun p => p.1 = k) then
    m.map (fun p => if p.1 = k then (k, v) else p)
  else m ++ [(k, v)]

/-- JS `map.delete(k)`. -/
def mapDelete (m : RecMap) (k : Nat) : RecMap :=
  m.filter (fun p => p.1 ≠ k)

/-- JS `map.values().next().value`: the first value in insertion order. -/
def firstValue (m : RecMap) : Option ActiveRecording :=
  m.head?.map (·.2)

/-- The relay's recording state: the active-recordings map and the
single-slot `lastRecordingMetadataTabId`. -/
structure RelayState where
  activeRecordings : RecMap
  lastRecordingMetadataTabId : Option Nat
deriving Repr, DecidableEq

/-- Embedding of `RecordingRelay.handleBinaryData`: reads and clears the metadata
slot, then appends the buffer to the chunks of the recording for that
tab, if any. -/
def handleBinaryData (st : RelayState) (buffer : List Nat) : RelayState :=
  let tabId := st.lastRecordingMetadataTabId
  let st1 : RelayState := { st with lastRecordingMetadataTabId := none }
  match tabId with
  | none => st1
  | some t =>
    match mapGet st1.activeRecordings t with
    | none => st1
    | some recd =>
      let recd2 : ActiveRecording := { recd with chunks := recd.chunks ++ [buffer] }
      { st1 with activeRecordings := mapSet st1.activeRecordings t recd2 }

/-- Embedding of `RecordingRelay.handleRecordingData`.  Returns the new state, the
file writes performed (`fs.writeFileSync` calls, as path/bytes pairs),
and the result passed to the pending `resolveStop` callback, if one was
invoked.  `now` stands for `Date.now()`. -/
def handleRecordingData (st : RelayState) (tabId : Nat) (final : Bool) (now : Nat) :
    RelayState × List (String × List Nat) × Option StopRecordingResult :=
  let recOpt := mapGet st.activeRecordings tabId
  let st1 : RelayState :=
    if !final then { st with lastRecordingMetadataTabId := some tabId } else st
  match recOpt with
  | some recd =>
    if final then
      let totalSize := recd.chunks.foldl (fun sum chunk => sum + chunk.length) 0
      let combined := recd.chunks.flatten
      let duration := now - recd.startedAt
      let res : Option StopRecordingResult :=
        if recd.resolveStop then
          some { success := true, tabId := some tabId, duration := some duration,
                 path := some recd.outputPath, size := some totalSize }
        else none
      ({ st1 with activeRecordings := mapDelete st1.activeRecordings tabId },
       [(recd.outputPath, combined)], res)
    else (st1, [], none)
  | none => (st1, [], none)

/-- Embedding of `RecordingRelay.handleRecordingCancelled`. -/
def handleRecordingCancelled (st : RelayState) (tabId : Nat) :
    RelayState × Option StopRecordingResult :=
  match mapGet st.activeRecordings tabId with
  | some recd =>
    let res : Option StopRecordingResult :=
      if recd.resolveStop then
        some { success := false, error := some "Recording was cancelled" }
      else none
    ({ st with activeRecordings := mapDelete st.activeRecordings tabId }, res)
  | none => (st, none)

/-- What the synchronous prefix of `RecordingRelay.stopRecording`
decides: either reply immediately (nothing is sent to the extension) or
proceed to send `stopRecording` to the extension for the found
recording. -/
inductive StopDecision where
  | reply (r : StopRecordingResult)
  | proceed (recd : ActiveRecording)
deriving Repr, DecidableEq

/-- The local `findRecording` closure in `stopRecording`: with a
`sessionId`, the first active recording (in map order) carrying it;
without one, the first active recording. -/
def findRecording (m : RecMap) (sessionId : Option String) : Option ActiveRecording :=
  match sessionId with
  | some sid => (m.map (·.2)).find? (fun recd => recd.sessionId = some sid)
  | none => firstValue m

/-- The synchronous prefix of `RecordingRelay.stopRecording`: the
extension-connected check, recording lookup, and the early error
returns. -/
def stopRecordingSelect (st : RelayState) (extConnected : Bool)
    (sessionId : Option String) : StopDecision :=
  if !extConnected then
    .reply { success := false, error := some "Extension not connected" }
  else
    match findRecording st.activeRecordings sessionId with
    | some recd => .proceed recd
    | none =>
      let errorMsg := match sessionId with
        | some sid => "No active recording found for sessionId: " ++ sid
        | none => "No active recording found"
      .reply { success := false, error := some errorMsg }

/-- Outcome of the awaited `sendToExtension({method:'stopRecording'})`
call: a result, or a thrown error (timeout / disconnect). -/
inductive ExtStopOutcome where
  | result (r : StopRecordingResult)
  | throwsErr (msg : String)
deriving Repr, DecidableEq

/-- What `stopRecording` does next after the extension call. -/
inductive StopContinuation where
  | returnResult (r : StopRecordingResult)
  | awaitFinal
deriving Repr, DecidableEq

/-- The continuation of `RecordingRelay.stopRecording` after the
`sendToExtension` call resolves for the recording with the given
`tabId`: on `success:false` the resolver is cleared, the recording is
deleted, and the extension's result is returned; on success the caller
awaits `finalPromise`; on a thrown error the catch block returns a
failure result built from the message (the recording is left in the
map). -/
def stopRecordingAfterSend (st : RelayState) (tabId : Nat)
    (outcome : ExtStopOutcome) : RelayState × StopContinuation :=
  match outcome with
  | .result r =>
    if !r.success then
      let st1 : RelayState :=
        match mapGet st.activeRecordings tabId with
        | some recd =>
          let recd2 : ActiveRecording := { recd with resolveStop := false }
          { st with activeRecordings := mapSet st.activeRecordings tabId recd2 }
        | none => st
      ({ st1 with activeRecordings := mapDelete st1.activeRecordings tabId },
       .returnResult r)
    else (st, .awaitFinal)
  | .throwsErr msg =>
    (st, .returnResult { success := false, error := some msg })

/-- The `setTimeout` delay in `stopRecording` (milliseconds). -/
def stopRecordingTimeoutMs : Nat := 30000

/-- State of one `finalPromise` created by `stopRecording`: whether the
recording object's `resolveStop` is set, whether the timeout is still
scheduled, and the promise's resolved value (a promise resolves at most
once; later resolutions are ignored). -/
structure PendingStop where
  resolverPresent : Bool
  timeoutActive : Bool
  result : Option StopRecordingResult
deriving Repr, DecidableEq

/-- State right after `stopRecording` installs `wrappedResolve` and
schedules the 30 s timeout. -/
def installPendingStop : PendingStop :=
  { resolverPresent := true, timeoutActive := true, result := none }

/-- Promise resolution: the first resolution wins. -/
def promiseResolve (p : PendingStop) (r : StopRecordingResult) : PendingStop :=
  match p.result with
  | none => { p with result := some r }
  | some _ => p

/-- The `wrappedResolve` closure: `clearTimeout(timeoutId)` then `resolve(result)`. -/
def wrappedResolve (p : PendingStop) (r : StopRecordingResult) : PendingStop :=
  promiseResolve { p with timeoutActive := false } r

/-- Events that can act on a pending stop: the 30 s timer firing, or
`handleRecordingData` invoking `recording.resolveStop` on a `final:true`
message. -/
inductive StopEvent where
  | timeoutFires
  | finalArrives (r : StopRecordingResult)
deriving Repr, DecidableEq

/-- One event acting on a pending stop.  The timer callback checks
`recording.resolveStop`, clears it, and resolves with the timeout error;
`handleRecordingData` calls the resolver only while it is set. -/
def stopStep (p : PendingStop) : StopEvent → PendingStop
  | .timeoutFires =>
    if p.timeoutActive then
      if p.resolverPresent then
        promiseResolve { p with timeoutActive := false, resolverPresent := false }
          { success := false, error := some "Timeout waiting for recording data" }
      else { p with timeoutActive := false }
    else p
  | .finalArrives r =>
    if p.resolverPresent then wrappedResolve p r else p

/-- Run a sequence of events on a pending stop. -/
def runStop (p : PendingStop) (evs : List StopEvent) : PendingStop :=
  evs.foldl stopStep p

/-- Outcome of the awaited `sendToExtension({method:'isRecording'})`
query: a result, or a thrown error (timeout / disconnect). -/
inductive ExtQueryOutcome where
  | ok (r : IsRecordingResult)
  | failsErr (msg : String)
deriving Repr, DecidableEq

/-- Embedding of `RecordingRelay.isRecording`: `{isRecording:false}` when the
extension is not connected or the forwarded query throws, otherwise the
extension's result unchanged.  The relay state is returned untouched
(the method reads no recording state and mutates none). -/
def isRecordingQuery (st : RelayState) (extConnected : Bool)
    (outcome : ExtQueryOutcome) : RelayState × IsRecordingResult :=
  if !extConnected then (st, { isRecording := false })
  else
    match outcome with
    | .ok r => (st, r)
    | .failsErr _ => (st, { isRecording := false })

/-- Modelled from the spec: the CDP relay server's extension-disconnect
handler lives in `cdp-relay.ts`, which is not among the sources here
(only its callers and tests are).  Spec §4.G: "On extension disconnect
mid-recording, all pending `stopRecording` resolve with `{success:false,
error:"Extension disconnected"}` and accumulated chunks are discarded
(no partial file)."  Returns the new state, the file writes performed
(none), and the resolutions delivered to pending stop calls. -/
def handleExtensionDisconnect (st : RelayState) :
    RelayState × List (String × List Nat) × List StopRecordingResult :=
  let resolutions : List StopRecordingResult :=
    (st.activeRecordings.filter (fun p => p.2.resolveStop)).map
      (fun _ => { success := false, error := some "Extension disconnected" })
  ({ st with activeRecordings := [] }, [], resolutions)

/-! ## Extension side (`src/extension-firefox/src/background.ts`)

Messages the extension puts on the relay WebSocket during one recording:
the `recordingData` JSON envelope and the binary chunk frame. -/

/-- A wire message of the recording side channel, extension → relay. -/
inductive RelayMsg where
  | meta (tabId : Nat) (final : Bool)
  | binary (data : List Nat)
deriving Repr, DecidableEq

/-- One entry of `recordingChunkBuffer` in `background.ts`: either
`{tabId, data, final:false}` (pushed by `ondataavailable` while the
socket is down) or `{tabId, final:true}` (pushed by `onstop`). -/
inductive BufEntry where
  | chunk (tabId : Nat) (data : List Nat)
  | finalMark (tabId : Nat)
deriving Repr, DecidableEq

/-- The `sendMessage` helper in `background.ts`: sends only while the socket is
open, silently drops otherwise. -/
def sendIfOpen (wsOpen : Bool) (m : RelayMsg) : List RelayMsg :=
  if wsOpen then [m] else []

/-- The body of the `while` loop of `flushRecordingChunkBuffer` for one
buffered entry: `sendMessage({method:'recordingData', params:{tabId,
final}})`, then the binary frame when the entry has data, is not final,
and the socket is open. -/
def flushEntry (wsOpen : Bool) : BufEntry → List RelayMsg
  | .chunk tabId data =>
    sendIfOpen wsOpen (.meta tabId false) ++ (if wsOpen then [.binary data] else [])
  | .finalMark tabId => sendIfOpen wsOpen (.meta tabId true)

/-- Embedding of `flushRecordingChunkBuffer`: drain the buffer in FIFO order. -/
def flushBuffer (wsOpen : Bool) (buf : List BufEntry) : List RelayMsg :=
  (buf.map (flushEntry wsOpen)).flatten

/-- Extension-side state for one recording: the chunk buffer, the wire
messages sent so far, and whether the WebSocket is open. -/
structure ExtRecState where
  buffer : List BufEntry
  wire : List RelayMsg
  wsOpen : Bool
deriving Repr, DecidableEq

/-- Events acting on the recording handlers set up by
`startRecordingFromPopup` in `background.ts`.  `ondataavailable` does
not send synchronously: it defers its send to
`event.data.arrayBuffer().then(...)`, so the observable event is the
completion of that blob read (`chunkRead`), which can fire after
`onstop` has already run.  `onstop` sends its envelope synchronously
(`stopFires`).  `socketOpens` is the new socket's `onopen` handler
(which runs `flushRecordingChunkBuffer`, then the `connect()`
continuation assigns `ws = socket`); `socketDrops` is `ws.onclose`,
which sets `ws = null`. -/
inductive RecEvent where
  | chunkRead (data : List Nat)
  | stopFires
  | socketOpens
  | socketDrops
deriving Repr, DecidableEq

/-- One step of the extension recording handlers for the recording of
tab `tabId`, straight from `background.ts`:

* `chunkRead` — the `arrayBuffer().then` callback of a chunk
  (`ondataavailable` starts the read only when `event.data.size > 0`):
  if the global `ws` is open at callback time, send
  `recordingData{tabId, final:false}` immediately followed by the binary
  frame, else push `{tabId, data, final:false}` onto the buffer;
* `stopFires` — `onstop`, synchronous: send
  `recordingData{tabId, final:true}` when `ws` is open, else push
  `{tabId, final:true}`;
* `socketOpens` — `socket.onopen` runs `flushRecordingChunkBuffer()`
  *before* `connect()` resumes and assigns `ws = socket`, so the flush's
  `sendMessage` and binary send read the stale closed/null `ws` and
  every drained entry is silently discarded (`flushBuffer false`);
* `socketDrops` — `ws.onclose`: `ws = null`. -/
def extStep (tabId : Nat) (st : ExtRecState) : RecEvent → ExtRecState
  | .chunkRead data =>
    if data.length > 0 then
      if st.wsOpen then
        { st with wire := st.wire ++ [.meta tabId false, .binary data] }
      else
        { st with buffer := st.buffer ++ [.chunk tabId data] }
    else st
  | .stopFires =>
    if st.wsOpen then
      { st with wire := st.wire ++ [.meta tabId true] }
    else
      { st with buffer := st.buffer ++ [.finalMark tabId] }
  | .socketOpens =>
    { buffer := [], wire := st.wire ++ flushBuffer false st.buffer, wsOpen := true }
  | .socketDrops => { st with wsOpen := false }

/-- Run the extension recording handlers over a list of events. -/
def extRun (tabId : Nat) (st : ExtRecState) (evs : List RecEvent) : ExtRecState :=
  evs.foldl (extStep tabId) st

/-- Initial extension-side state at `recorder.start()`: empty buffer,
nothing sent yet. -/
def extInit (wsOpen : Bool) : ExtRecState :=
  { buffer := [], wire := [], wsOpen := wsOpen }

/-! ## CLI `serve` subcommand -/

/-- The options registered on the `serve` command (flag string and
description, as passed to `.option(...)`). -/
def serveOptions : List (String × String) :=
  [("--host <host>", "Host to bind to"),
   ("--token <token>", "Authentication token (or use PLAYWRITER_TOKEN env var)"),
   ("--replace", "Kill existing server if running")]

/-- The flag name of an option string: everything up to the first
space, e.g. `--host` from `--host <host>` (how `cac` derives the
accepted flag from the registered option string). -/
def flagNameOf (flag : String) : String :=
  (flag.toList.takeWhile (fun c => c ≠ ' ')).asString

/-- Whether the `serve` command accepts an option with the given flag
name. -/
def serveAccepts (flagName : String) : Bool :=
  serveOptions.any (fun o => flagNameOf o.1 = flagName)

/-- The fixed relay port (`RELAY_PORT` in the CLI). -/
def relayPort : Nat := 19988

/-- What the `serve` action does before starting the server. -/
inductive ServeAction where
  | exitWith (code : Nat)
  | killExistingThenStart
  | start
deriving Repr, DecidableEq

/-- JS `options.token || process.env.PLAYWRITER_TOKEN`: an empty string
is falsy. -/
def effectiveToken (tokenOpt : Option String) (envToken : Option String) :
    Option String :=
  match tokenOpt with
  | some t => if t = "" then envToken else some t
  | none => envToken

/-- The startup decision of the `serve` action: the public-host token
check (`process.exit(1)`), the port-in-use check (`process.exit(0)`
without `--replace`, kill the prior instance with it), then start. -/
def serveStartup (host : String) (tokenOpt : Option String)
    (envToken : Option String) (replaceFlag : Bool) (portInUse : Bool) :
    ServeAction :=
  let token := effectiveToken tokenOpt envToken
  let isPublicHost := host = "0.0.0.0" || host = "::"
  if isPublicHost && token.isNone then .exitWith 1
  else if portInUse then
    if !replaceFlag then .exitWith 0 else .killExistingThenStart
  else .start

/-- Process terminations wired up by the `serve` action. -/
inductive ServeTermination where
  | sigint
  | sigterm
  | uncaughtException
  | unhandledRejection
deriving Repr, DecidableEq

/-- The exit code each installed handler passes to `process.exit`. -/
def serveExitCode : ServeTermination → Nat
  | .sigint => 0
  | .sigterm => 0
  | .uncaughtException => 1
  | .unhandledRejection => 1

/-! ## Map lemmas -/

theorem mapGet_mapSet_self (m : RecMap) (k : Nat) (v : ActiveRecording) :
    mapGet (mapSet m k v) k = some v := by
  unfold mapSet
  by_cases h : m.any (fun p => p.1 = k)
  · simp only [h, if_true]
    induction m with
    | nil => simp at h
    | cons p t ih =>
      by_cases hp : p.1 = k
      · simp only [List.map_cons, if_pos hp, mapGet]
        rw [List.find?_cons_of_pos _ (by simp)]
        rfl
      · have ht : t.any (fun p => p.1 = k) := by
          simp only [List.any_cons] at h
          rcases Bool.or_eq_true_iff.mp h with h1 | h1
          · exact absurd (by simpa using h1) hp
          · exact h1
        simp only [List.map_cons, if_neg hp, mapGet] at ih ⊢
        rw [List.find?_cons_of_neg _ (by simpa using hp)]
        exact ih ht
  · have hall : ∀ p ∈ m, ¬ p.1 = k := by
      intro p hp hk
      exact h (List.any_eq_true.mpr ⟨p, hp, by simpa using hk⟩)
    rw [if_neg h]
    simp only [mapGet]
    rw [List.find?_append,
      List.find?_eq_none.mpr (fun x hx => by simpa using hall x hx),
      Option.none_or, List.find?_cons_of_pos _ (by simp)]
    rfl

theorem mapGet_mapSet_ne (m : RecMap) (k k' : Nat) (v : ActiveRecording)
    (h : k' ≠ k) : mapGet (mapSet m k v) k' = mapGet m k' := by
  unfold mapSet
  by_cases hm : m.any (fun p => p.1 = k)
  · simp only [hm, if_true]
    have key : ∀ l : RecMap,
        (l.map (fun p => if p.1 = k then (k, v) else p)).find?
            (fun p => p.1 = k') =
          l.find? (fun p => p.1 = k') := by
      intro l
      induction l with
      | nil => rfl
      | cons p t ih =>
        by_cases hp : p.1 = k
        · have h1 : ¬ p.1 = k' := by rw [hp]; exact fun hh => h hh.symm
          rw [List.map_cons, if_pos hp,
            List.find?_cons_of_neg _ (by simpa using Ne.symm h),
            List.find?_cons_of_neg _ (by simpa using h1), ih]
        · by_cases hk' : p.1 = k'
          · rw [List.map_cons, if_neg hp,
              List.find?_cons_of_pos _ (by simpa using hk'),
              List.find?_cons_of_pos _ (by simpa using hk')]
          · rw [List.map_cons, if_neg hp,
              List.find?_cons_of_neg _ (by simpa using hk'),
              List.find?_cons_of_neg _ (by simpa using hk'), ih]
    simp only [mapGet]
    rw [key]
  · rw [if_neg hm]
    simp only [mapGet]
    rw [List.find?_append]
    have h2 : List.find? (fun p => decide (p.1 = k')) [(k, v)] = none := by
      rw [List.find?_cons_of_neg _ (by simpa using Ne.symm h)]
      rfl
    rw [h2, Option.or_none]

theorem mapGet_mapDelete_self (m : RecMap) (k : Nat) :
    mapGet (mapDelete m k) k = none := by
  induction m with
  | nil => rfl
  | cons p t ih =>
    by_cases hp : p.1 = k
    · rw [show mapDelete (p :: t) k = mapDelete t k by
        simp [mapDelete, List.filter, hp]]
      exact ih
    · simp [mapDelete, mapGet, List.filter, List.find?, hp] at ih ⊢

/-! ## C1 and C2: chunk accumulation and the final write -/

theorem chunks_foldl_length (cs : List (List Nat)) (n : Nat) :
    cs.foldl (fun sum chunk => sum + chunk.length) n = n + cs.flatten.length := by
  induction cs generalizing n with
  | nil => simp
  | cons c t ih => simp [List.foldl_cons, ih, Nat.add_assoc]

/-- C1: a `final:true` `recordingData` for an active recording produces
exactly one file write — the byte-exact concatenation of the accumulated
chunks, whose size is the sum of the chunk sizes — resolves a pending
`stopRecording` with `{success:true, path, size, duration}`, and removes
the recording from the active map; every other `recordingData` message
performs no file write at all. -/
theorem recordingData_final_single_write :
    (∀ (st : RelayState) (tabId now : Nat) (recd : ActiveRecording),
      mapGet st.activeRecordings tabId = some recd →
      (handleRecordingData st tabId true now).2.1 =
          [(recd.outputPath, recd.chunks.flatten)] ∧
      recd.chunks.flatten.length =
          recd.chunks.foldl (fun sum chunk => sum + chunk.length) 0 ∧
      mapGet (handleRecordingData st tabId true now).1.activeRecordings tabId = none ∧
      (recd.resolveStop = true →
        (handleRecordingData st tabId true now).2.2 =
          some { success := true, tabId := some tabId,
                 duration := some (now - recd.startedAt),
                 path := some recd.outputPath,
                 size := some (recd.chunks.foldl
                   (fun sum chunk => sum + chunk.length) 0) })) ∧
    (∀ (st : RelayState) (tabId : Nat) (final : Bool) (now : Nat),
      ¬ (final = true ∧ (mapGet st.activeRecordings tabId).isSome) →
      (handleRecordingData st tabId final now).2.1 = []) := by
  constructor
  · intro st tabId now recd h
    refine ⟨?_, ?_, ?_, ?_⟩
    · simp [handleRecordingData, h]
    · simp [chunks_foldl_length]
    · simp [handleRecordingData, h, mapGet_mapDelete_self]
    · intro hres
      simp [handleRecordingData, h, hres]
  · intro st tabId final now h
    match hfin : final with
    | false =>
      cases hget : mapGet st.activeRecordings tabId <;>
        simp [handleRecordingData, hget]
    | true =>
      cases hget : mapGet st.activeRecordings tabId with
      | none => simp [handleRecordingData, hget]
      | some recd => exact absurd ⟨rfl, by simp [hget]⟩ h

/-- Used as the concrete input of several witnesses below. -/
def sampleRecording : ActiveRecording :=
  { tabId := 7, sessionId := some "s1", outputPath := "/tmp/out.webm",
    chunks := [[1, 2], [3]], startedAt := 100, resolveStop := true }

/-- Witness for `recordingData_final_single_write` at a concrete state. -/
theorem recordingData_final_single_write_witness :
    mapGet [(7, sampleRecording)] 7 = some sampleRecording ∧
    (handleRecordingData
        { activeRecordings := [(7, sampleRecording)],
          lastRecordingMetadataTabId := none } 7 true 150).2.1 =
      [("/tmp/out.webm", [1, 2, 3])] := by
  refine ⟨by decide, ?_⟩
  have h := (recordingData_final_single_write.1
    { activeRecordings := [(7, sampleRecording)],
      lastRecordingMetadataTabId := none } 7 150 sampleRecording (by decide)).1
  rw [h]; decide

/-- C2: a binary frame is routed by the single-slot
`lastRecordingMetadataTabId`, which is cleared on every call: without a
preceding metadata the frame changes no recording; with one, only the
slot's recording (if active) gains the frame as a new last chunk and
every other tab's entry is untouched; a second consecutive binary frame
after one metadata changes nothing. -/
theorem binaryData_single_slot_routing :
    (∀ (st : RelayState) (buffer : List Nat),
      (handleBinaryData st buffer).lastRecordingMetadataTabId = none) ∧
    (∀ (st : RelayState) (buffer : List Nat),
      st.lastRecordingMetadataTabId = none →
      (handleBinaryData st buffer).activeRecordings = st.activeRecordings) ∧
    (∀ (st : RelayState) (buffer : List Nat) (t : Nat),
      st.lastRecordingMetadataTabId = some t →
      (∀ t2, t2 ≠ t →
        mapGet (handleBinaryData st buffer).activeRecordings t2 =
          mapGet st.activeRecordings t2) ∧
      (∀ recd, mapGet st.activeRecordings t = some recd →
        mapGet (handleBinaryData st buffer).activeRecordings t =
          some { recd with chunks := recd.chunks ++ [buffer] }) ∧
      (mapGet st.activeRecordings t = none →
        (handleBinaryData st buffer).activeRecordings = st.activeRecordings)) ∧
    (∀ (st : RelayState) (b1 b2 : List Nat),
      (handleBinaryData (handleBinaryData st b1) b2).activeRecordings =
        (handleBinaryData st b1).activeRecordings) := by
  have hslot : ∀ (st : RelayState) (buffer : List Nat),
      (handleBinaryData st buffer).lastRecordingMetadataTabId = none := by
    intro st buffer
    simp only [handleBinaryData]
    split
    · rfl
    · split <;> rfl
  have hnone : ∀ (st : RelayState) (buffer : List Nat),
      st.lastRecordingMetadataTabId = none →
      (handleBinaryData st buffer).activeRecordings = st.activeRecordings := by
    intro st buffer h
    simp [handleBinaryData, h]
  refine ⟨hslot, hnone, ?_, ?_⟩
  · intro st buffer t h
    refine ⟨?_, ?_, ?_⟩
    · intro t2 ht2
      simp only [handleBinaryData, h]
      cases hget : mapGet st.activeRecordings t with
      | none => simp [hget]
      | some recd => simp [hget, mapGet_mapSet_ne _ _ _ _ ht2]
    · intro recd hget
      simp only [handleBinaryData, h, hget]
      simpa using mapGet_mapSet_self st.activeRecordings t _
    · intro hget
      simp [handleBinaryData, h, hget]
  · intro st b1 b2
    exact hnone _ b2 (hslot st b1)

/-- Witness for `binaryData_single_slot_routing` at a concrete state. -/
theorem binaryData_single_slot_routing_witness :
    ({ activeRecordings := [(7, sampleRecording)],
       lastRecordingMetadataTabId := some 7 :
       RelayState }).lastRecordingMetadataTabId = some 7 ∧
    mapGet [(7, sampleRecording)] 7 = some sampleRecording ∧
    mapGet (handleBinaryData
        { activeRecordings := [(7, sampleRecording)],
          lastRecordingMetadataTabId := some 7 } [9, 9]).activeRecordings 7 =
      some { sampleRecording with chunks := sampleRecording.chunks ++ [[9, 9]] } := by
  refine ⟨rfl, by decide, ?_⟩
  exact ((binaryData_single_slot_routing.2.2.1
    { activeRecordings := [(7, sampleRecording)],
      lastRecordingMetadataTabId := some 7 } [9, 9] 7 rfl).2.1
    sampleRecording (by decide))

/-! ## C3: the 30 s stop timeout -/

theorem stopStep_result_sticky (p : PendingStop) (e : StopEvent)
    (r : StopRecordingResult) (h : p.result = some r) :
    (stopStep p e).result = some r := by
  cases e with
  | timeoutFires =>
    by_cases ht : p.timeoutActive
    · by_cases hres : p.resolverPresent
      · simp [stopStep, ht, hres, promiseResolve, h]
      · simp [stopStep, ht, hres, h]
    · simp [stopStep, ht, h]
  | finalArrives r2 =>
    by_cases hres : p.resolverPresent
    · simp [stopStep, hres, wrappedResolve, promiseResolve, h]
    · simp [stopStep, hres, h]

theorem runStop_result_sticky (evs : List StopEvent) (p : PendingStop)
    (r : StopRecordingResult) (h : p.result = some r) :
    (runStop p evs).result = some r := by
  induction evs generalizing p with
  | nil => exact h
  | cons e t ih => exact ih (stopStep p e) (stopStep_result_sticky p e r h)

/-- C3: when the 30 s timer of a pending `stopRecording` fires before
any `final:true` arrives, the promise resolves with
`{success:false, error:'Timeout waiting for recording data'}`, and no
later `final:true` (nor any later event) changes that resolution. -/
theorem stopTimeout_resolves_then_blocks_final :
    stopRecordingTimeoutMs = 30000 ∧
    ∀ rest : List StopEvent,
      (runStop installPendingStop (StopEvent.timeoutFires :: rest)).result =
        some { success := false,
               error := some "Timeout waiting for recording data" } := by
  refine ⟨rfl, ?_⟩
  intro rest
  have h1 : (stopStep installPendingStop .timeoutFires).result =
      some { success := false,
             error := some "Timeout waiting for recording data" } := by
    simp [stopStep, installPendingStop, promiseResolve]
  exact runStop_result_sticky rest _ _ h1

/-! ## C4: recording selection in `stopRecording` -/

/-- C4: `stopRecording` selects by `sessionId` when given one — the
chosen recording carries that `sessionId` and is an active one — and
fails with an error naming the `sessionId` (sending nothing to the
extension) when no active recording carries it; without a `sessionId` it
selects the first active recording, and with no active recording at all
it replies `'No active recording found'` without sending anything. -/
theorem stopRecording_selection :
    (∀ (st : RelayState) (sid : String) (recd : ActiveRecording),
      stopRecordingSelect st true (some sid) = .proceed recd →
      recd.sessionId = some sid ∧ recd ∈ st.activeRecordings.map (·.2)) ∧
    (∀ (st : RelayState) (sid : String),
      (∀ p ∈ st.activeRecordings, p.2.sessionId ≠ some sid) →
      stopRecordingSelect st true (some sid) =
        .reply { success := false,
                 error := some ("No active recording found for sessionId: " ++ sid) }) ∧
    (∀ (st : RelayState) (p0 : Nat × ActiveRecording)
        (rest : List (Nat × ActiveRecording)),
      st.activeRecordings = p0 :: rest →
      stopRecordingSelect st true none = .proceed p0.2) ∧
    (∀ st : RelayState, st.activeRecordings = [] →
      stopRecordingSelect st true none =
        .reply { success := false, error := some "No active recording found" }) := by
  refine ⟨?_, ?_, ?_, ?_⟩
  · intro st sid recd h
    unfold stopRecordingSelect at h
    simp only [Bool.not_true, if_neg (by simp : ¬ (false : Bool) = true)] at h
    cases hf : findRecording st.activeRecordings (some sid) with
    | none => rw [hf] at h; exact absurd h (by simp)
    | some r2 =>
      rw [hf] at h
      simp only [StopDecision.proceed.injEq] at h
      subst h
      unfold findRecording at hf
      refine ⟨by simpa using List.find?_some hf, List.mem_of_find?_eq_some hf⟩
  · intro st sid hall
    unfold stopRecordingSelect
    have hf : findRecording st.activeRecordings (some sid) = none := by
      unfold findRecording
      refine List.find?_eq_none.mpr ?_
      intro recd hmem
      rcases List.mem_map.mp hmem with ⟨p, hp, rfl⟩
      simpa using hall p hp
    simp [hf]
  · intro st p0 rest h
    unfold stopRecordingSelect findRecording firstValue
    simp [h]
  · intro st h
    unfold stopRecordingSelect findRecording firstValue
    simp [h]

/-- Witness for `stopRecording_selection` at concrete states. -/
theorem stopRecording_selection_witness :
    (∀ p ∈ ([(7, sampleRecording)] : RecMap), p.2.sessionId ≠ some "zz") ∧
    stopRecordingSelect
        { activeRecordings := [(7, sampleRecording)],
          lastRecordingMetadataTabId := none } true (some "zz") =
      .reply { success := false,
               error := some "No active recording found for sessionId: zz" } := by
  have hall : ∀ p ∈ ([(7, sampleRecording)] : RecMap),
      p.2.sessionId ≠ some "zz" := by decide
  exact ⟨hall, stopRecording_selection.2.1
    { activeRecordings := [(7, sampleRecording)],
      lastRecordingMetadataTabId := none } "zz" hall⟩

/-! ## C5: extension disconnect mid-recording (spec-modelled) -/

/-- C5: on extension disconnect, every recording with a pending
`stopRecording` yields a `{success:false, error:'Extension
disconnected'}` resolution (one per pending call), no file write
happens, and all accumulated recordings — with their chunks — are
discarded. -/
theorem extensionDisconnect_resolves_pending :
    ∀ st : RelayState,
      (handleExtensionDisconnect st).2.1 = [] ∧
      (handleExtensionDisconnect st).1.activeRecordings = [] ∧
      (∀ r ∈ (handleExtensionDisconnect st).2.2,
        r = { success := false, error := some "Extension disconnected" }) ∧
      (handleExtensionDisconnect st).2.2.length =
        (st.activeRecordings.filter (fun p => p.2.resolveStop)).length := by
  intro st
  refine ⟨rfl, rfl, ?_, ?_⟩
  · intro r hr
    unfold handleExtensionDisconnect at hr
    simp only at hr
    rcases List.mem_map.mp hr with ⟨p, _, rfl⟩
    rfl
  · unfold handleExtensionDisconnect
    simp

/-- Witness for `extensionDisconnect_resolves_pending` at a concrete
state with one pending recording. -/
theorem extensionDisconnect_resolves_pending_witness :
    { success := false, error := some "Extension disconnected" } ∈
      (handleExtensionDisconnect
        { activeRecordings := [(7, sampleRecording)],
          lastRecordingMetadataTabId := none }).2.2 ∧
    ({ success := false, error := some "Extension disconnected" } :
        StopRecordingResult) =
      { success := false, error := some "Extension disconnected" } := by
  have hmem : ({ success := false, error := some "Extension disconnected" } :
      StopRecordingResult) ∈
      (handleExtensionDisconnect
        { activeRecordings := [(7, sampleRecording)],
          lastRecordingMetadataTabId := none }).2.2 := by decide
  exact ⟨hmem, (extensionDisconnect_resolves_pending
    { activeRecordings := [(7, sampleRecording)],
      lastRecordingMetadataTabId := none }).2.2.1 _ hmem⟩

/-! ## C10: `isRecording` is total and read-only -/

/-- C10: `isRecording` never fails: it returns `{isRecording:false}`
when the extension is not connected or the forwarded query throws, and
the extension's result unchanged otherwise; the relay's recording state
is returned untouched in every case. -/
theorem isRecording_total_readonly :
    ∀ (st : RelayState),
      (∀ outcome, isRecordingQuery st false outcome =
        (st, { isRecording := false })) ∧
      (∀ r, isRecordingQuery st true (.ok r) = (st, r)) ∧
      (∀ msg, isRecordingQuery st true (.failsErr msg) =
        (st, { isRecording := false })) ∧
      (∀ extConnected outcome,
        (isRecordingQuery st extConnected outcome).1 = st) := by
  intro st
  refine ⟨fun outcome => rfl, fun r => rfl, fun msg => rfl, ?_⟩
  intro extConnected outcome
  cases extConnected with
  | false => rfl
  | true => cases outcome <;> rfl

/-! ## C9: `stopRecording` after a failed or thrown extension command -/

/-- Concrete relay state with one active recording, pending stop. -/
def oneRecordingState : RelayState :=
  { activeRecordings := [(7, sampleRecording)],
    lastRecordingMetadataTabId := none }

theorem handleRecordingData_no_recording (st : RelayState) (tabId : Nat)
    (final : Bool) (now : Nat)
    (h : mapGet st.activeRecordings tabId = none) :
    (handleRecordingData st tabId final now).2.1 = [] ∧
    (handleRecordingData st tabId final now).2.2 = none := by
  cases final <;> simp [handleRecordingData, h]

/-- C9 counterexample: when the forwarded `stopRecording` command
*throws*, the catch block returns a failure result but the recording
entry is NOT removed from the active-recordings map: a later
`final:true` for that tab still writes a file — contradicting the claim
for the thrown case. -/
theorem stopThrow_keeps_recording_counterexample :
    (stopRecordingAfterSend oneRecordingState 7
        (.throwsErr "WebSocket closed")).2 =
      .returnResult { success := false, error := some "WebSocket closed" } ∧
    mapGet (stopRecordingAfterSend oneRecordingState 7
        (.throwsErr "WebSocket closed")).1.activeRecordings 7 =
      some sampleRecording ∧
    (handleRecordingData (stopRecordingAfterSend oneRecordingState 7
        (.throwsErr "WebSocket closed")).1 7 true 200).2.1 =
      [("/tmp/out.webm", [1, 2, 3])] := by
  refine ⟨rfl, by decide, by decide⟩

/-- C9 (amended): when the forwarded extension command *returns*
`success:false`, the resolver is cleared, the recording entry is removed
from the map — so a later `final:true` for that tab writes no file and
resolves nothing — and the extension's failure result is returned
unchanged; when the command *throws*, `stopRecording` returns
`{success:false, error:message}` but leaves the relay state, recording
entry included, untouched. -/
theorem stopFailure_clears_recording :
    ∀ (st : RelayState) (tabId : Nat) (r : StopRecordingResult),
      r.success = false →
      (stopRecordingAfterSend st tabId (.result r)).2 = .returnResult r ∧
      mapGet (stopRecordingAfterSend st tabId
          (.result r)).1.activeRecordings tabId = none ∧
      (∀ now,
        (handleRecordingData (stopRecordingAfterSend st tabId
            (.result r)).1 tabId true now).2.1 = [] ∧
        (handleRecordingData (stopRecordingAfterSend st tabId
            (.result r)).1 tabId true now).2.2 = none) ∧
      (∀ msg,
        (stopRecordingAfterSend st tabId (.throwsErr msg)).2 =
          .returnResult { success := false, error := some msg } ∧
        (stopRecordingAfterSend st tabId (.throwsErr msg)).1 = st) := by
  intro st tabId r hfail
  have hdel : mapGet (stopRecordingAfterSend st tabId
      (.result r)).1.activeRecordings tabId = none := by
    unfold stopRecordingAfterSend
    cases hget : mapGet st.activeRecordings tabId <;>
      simp [hfail, hget, mapGet_mapDelete_self]
  refine ⟨?_, hdel, ?_, ?_⟩
  · unfold stopRecordingAfterSend
    cases hget : mapGet st.activeRecordings tabId <;> simp [hfail, hget]
  · intro now
    exact handleRecordingData_no_recording _ tabId true now hdel
  · intro msg
    exact ⟨rfl, rfl⟩

/-- Witness for `stopFailure_clears_recording` at a concrete state. -/
theorem stopFailure_clears_recording_witness :
    (({ success := false, error := some "not recording" } :
        StopRecordingResult)).success = false ∧
    mapGet (stopRecordingAfterSend oneRecordingState 7
        (.result { success := false,
                   error := some "not recording" })).1.activeRecordings 7 =
      none := by
  exact ⟨rfl, (stopFailure_clears_recording oneRecordingState 7
    { success := false, error := some "not recording" } rfl).2.1⟩

/-! ## C7 and C8: the CLI `serve` subcommand -/

/-- C7 counterexample: the `serve` command registers `--host`, `--token`
and `--replace`, but no `--port` option — the claim that it accepts
`--port` is false. -/
theorem serve_has_no_port_option :
    serveAccepts "--host" = true ∧ serveAccepts "--token" = true ∧
    serveAccepts "--replace" = true ∧ serveAccepts "--port" = false := by
  decide

/-- C7 (amended): `serve` accepts `--host`, `--token` and `--replace`
(with `--replace`, a prior instance on the relay port is killed before
starting; without it, none of this happens); it has no `--port` option —
the relay port is fixed at 19988. -/
theorem serve_option_surface :
    serveAccepts "--host" = true ∧ serveAccepts "--token" = true ∧
    serveAccepts "--replace" = true ∧ serveAccepts "--port" = false ∧
    relayPort = 19988 ∧
    (∀ (host : String) (tokenOpt envToken : Option String),
      ¬ ((host = "0.0.0.0" ∨ host = "::") ∧
          effectiveToken tokenOpt envToken = none) →
      serveStartup host tokenOpt envToken true true = .killExistingThenStart) := by
  refine ⟨by decide, by decide, by decide, by decide, rfl, ?_⟩
  intro host tokenOpt envToken h
  unfold serveStartup
  by_cases hpub : host = "0.0.0.0" ∨ host = "::"
  · cases heff : effectiveToken tokenOpt envToken with
    | none => exact absurd ⟨hpub, heff⟩ h
    | some t =>
      rcases hpub with h1 | h1 <;> simp [h1, heff]
  · rw [not_or] at hpub
    simp [hpub.1, hpub.2]

/-- Witness for `serve_option_surface` at a concrete input. -/
theorem serve_option_surface_witness :
    ¬ ((("127.0.0.1" : String) = "0.0.0.0" ∨ ("127.0.0.1" : String) = "::") ∧
        effectiveToken none none = none) ∧
    serveStartup "127.0.0.1" none none true true = .killExistingThenStart := by
  have h : ¬ ((("127.0.0.1" : String) = "0.0.0.0" ∨
      ("127.0.0.1" : String) = "::") ∧ effectiveToken none none = none) := by
    decide
  exact ⟨h, (serve_option_surface.2.2.2.2.2) "127.0.0.1" none none h⟩

/-- C8: `serve` exits with code 0 on clean shutdown — SIGINT, SIGTERM,
or the port already in use without `--replace` — and with code 1 on an
uncaught exception, an unhandled rejection, or a missing token on a
public bind address. -/
theorem serve_exit_code_policy :
    serveExitCode .sigint = 0 ∧ serveExitCode .sigterm = 0 ∧
    serveExitCode .uncaughtException = 1 ∧
    serveExitCode .unhandledRejection = 1 ∧
    (∀ (host : String) (tokenOpt envToken : Option String)
        (replaceFlag portInUse : Bool),
      (host = "0.0.0.0" ∨ host = "::") →
      effectiveToken tokenOpt envToken = none →
      serveStartup host tokenOpt envToken replaceFlag portInUse = .exitWith 1) ∧
    (∀ (host : String) (tokenOpt envToken : Option String),
      ¬ ((host = "0.0.0.0" ∨ host = "::") ∧
          effectiveToken tokenOpt envToken = none) →
      serveStartup host tokenOpt envToken false true = .exitWith 0) := by
  refine ⟨rfl, rfl, rfl, rfl, ?_, ?_⟩
  · intro host tokenOpt envToken replaceFlag portInUse hpub htok
    unfold serveStartup
    rcases hpub with h1 | h1 <;> simp [h1, htok]
  · intro host tokenOpt envToken h
    unfold serveStartup
    by_cases hpub : host = "0.0.0.0" ∨ host = "::"
    · cases heff : effectiveToken tokenOpt envToken with
      | none => exact absurd ⟨hpub, heff⟩ h
      | some t =>
        rcases hpub with h1 | h1 <;> simp [h1, heff]
    · rw [not_or] at hpub
      simp [hpub.1, hpub.2]

/-- Witness for `serve_exit_code_policy` at concrete inputs. -/
theorem serve_exit_code_policy_witness :
    ((("0.0.0.0" : String) = "0.0.0.0" ∨ ("0.0.0.0" : String) = "::") ∧
      effectiveToken none none = none) ∧
    serveStartup "0.0.0.0" none none false false = .exitWith 1 := by
  exact ⟨⟨Or.inl rfl, rfl⟩,
    serve_exit_code_policy.2.2.2.2.1 "0.0.0.0" none none false false
      (Or.inl rfl) rfl⟩

/-! ## C6: metadata/binary ordering on the extension wire

Two facts of `background.ts` shape this claim.  First, `ondataavailable`
defers each chunk send to `event.data.arrayBuffer().then(...)` while
`onstop` sends `final:true` synchronously, so on a normal stop the
trailing chunk's labelled pair goes out *after* the `final:true`
envelope.  Second, `flushRecordingChunkBuffer()` runs inside
`socket.onopen` before `ws = socket` is assigned, so the flush reads the
stale closed `ws` and discards every buffered entry instead of sending
it. -/

theorem flushBuffer_cons (o : Bool) (e : BufEntry) (buf : List BufEntry) :
    flushBuffer o (e :: buf) = flushEntry o e ++ flushBuffer o buf := by
  simp [flushBuffer]

theorem flushEntry_stale (e : BufEntry) : flushEntry false e = [] := by
  cases e <;> rfl

/-- A flush that reads a non-open `ws` sends nothing: every drained
entry is dropped by the `sendMessage` guard and the binary-send guard. -/
theorem flushBuffer_stale (buf : List BufEntry) :
    flushBuffer false buf = [] := by
  induction buf with
  | nil => rfl
  | cons e t ih =>
    rw [flushBuffer_cons, flushEntry_stale, ih]
    rfl

/-- One self-contained unit the extension puts on the wire: a chunk's
routing envelope immediately followed by its binary frame, or the
lone `final:true` envelope. -/
inductive WireUnit where
  | chunkPair (d : List Nat)
  | finalMsg
deriving Repr, DecidableEq

def unitWire (tabId : Nat) : WireUnit → List RelayMsg
  | .chunkPair d => [RelayMsg.meta tabId false, RelayMsg.binary d]
  | .finalMsg => [RelayMsg.meta tabId true]

def unitsWire (tabId : Nat) (us : List WireUnit) : List RelayMsg :=
  (us.map (unitWire tabId)).flatten

theorem unitsWire_nil (tabId : Nat) : unitsWire tabId [] = [] := rfl

theorem unitsWire_chunk_cons (tabId : Nat) (c : List Nat)
    (us : List WireUnit) :
    unitsWire tabId (WireUnit.chunkPair c :: us) =
      RelayMsg.meta tabId false :: RelayMsg.binary c :: unitsWire tabId us := by
  simp [unitsWire, unitWire]

theorem unitsWire_final_cons (tabId : Nat) (us : List WireUnit) :
    unitsWire tabId (WireUnit.finalMsg :: us) =
      RelayMsg.meta tabId true :: unitsWire tabId us := by
  simp [unitsWire, unitWire]

theorem unitsWire_append (tabId : Nat) (us1 us2 : List WireUnit) :
    unitsWire tabId (us1 ++ us2) =
      unitsWire tabId us1 ++ unitsWire tabId us2 := by
  simp [unitsWire]

/-- Every step leaves the wire a concatenation of complete units: live
sends append a whole unit, buffering appends nothing, and the stale-`ws`
reconnect flush appends nothing. -/
theorem extStep_wire_units (tabId : Nat) (st : ExtRecState) (e : RecEvent)
    (h : ∃ us, st.wire = unitsWire tabId us) :
    ∃ us, (extStep tabId st e).wire = unitsWire tabId us := by
  obtain ⟨us, hw⟩ := h
  cases e with
  | chunkRead data =>
    by_cases hd : data.length > 0
    · cases ho : st.wsOpen with
      | true =>
        refine ⟨us ++ [WireUnit.chunkPair data], ?_⟩
        simp only [extStep, if_pos hd, ho, if_true]
        rw [hw, unitsWire_append]
        rfl
      | false =>
        refine ⟨us, ?_⟩
        simp only [extStep, if_pos hd, ho, Bool.false_eq_true, if_false]
        exact hw
    · exact ⟨us, by simpa only [extStep, if_neg hd] using hw⟩
  | stopFires =>
    cases ho : st.wsOpen with
    | true =>
      refine ⟨us ++ [WireUnit.finalMsg], ?_⟩
      simp only [extStep, ho, if_true]
      rw [hw, unitsWire_append]
      rfl
    | false =>
      refine ⟨us, ?_⟩
      simp only [extStep, ho, Bool.false_eq_true, if_false]
      exact hw
  | socketOpens =>
    refine ⟨us, ?_⟩
    simp only [extStep]
    rw [flushBuffer_stale, List.append_nil, hw]
  | socketDrops => exact ⟨us, hw⟩

theorem extRun_wire_units (tabId : Nat) (evs : List RecEvent)
    (st : ExtRecState) (h : ∃ us, st.wire = unitsWire tabId us) :
    ∃ us, (extRun tabId st evs).wire = unitsWire tabId us := by
  induction evs generalizing st with
  | nil => exact h
  | cons e t ih => exact ih _ (extStep_wire_units tabId st e h)

theorem unitsWire_binary_preceded (tabId : Nat) (us : List WireUnit) :
    ∀ pre (d : List Nat) post,
      unitsWire tabId us = pre ++ RelayMsg.binary d :: post →
      ∃ pre0, pre = pre0 ++ [RelayMsg.meta tabId false] ∧
        (pre0 = [] ∨ (∃ pre1 d0, pre0 = pre1 ++ [RelayMsg.binary d0]) ∨
          (∃ pre1, pre0 = pre1 ++ [RelayMsg.meta tabId true])) := by
  induction us with
  | nil =>
    intro pre d post h
    rw [unitsWire_nil] at h
    exact absurd h.symm (by simp)
  | cons u us ih =>
    intro pre d post h
    cases u with
    | chunkPair c =>
      rw [unitsWire_chunk_cons] at h
      rcases pre with _ | ⟨x, _ | ⟨y, pre2⟩⟩
      · rw [List.nil_append] at h
        cases h
      · simp only [List.cons_append, List.nil_append, List.cons.injEq] at h
        exact ⟨[], by simp [h.1.symm], Or.inl rfl⟩
      · simp only [List.cons_append, List.cons.injEq] at h
        obtain ⟨hx, hy, hrest⟩ := h
        obtain ⟨pre0, hpre0, hor⟩ := ih pre2 d post hrest
        refine ⟨RelayMsg.meta tabId false :: RelayMsg.binary c :: pre0, ?_, ?_⟩
        · subst hx
          subst hy
          rw [hpre0]
          rfl
        · right
          rcases hor with rfl | ⟨pre1, d0, rfl⟩ | ⟨pre1, rfl⟩
          · exact Or.inl ⟨[RelayMsg.meta tabId false], c, rfl⟩
          · exact Or.inl
              ⟨RelayMsg.meta tabId false :: RelayMsg.binary c :: pre1, d0, rfl⟩
          · exact Or.inr
              ⟨RelayMsg.meta tabId false :: RelayMsg.binary c :: pre1, rfl⟩
    | finalMsg =>
      rw [unitsWire_final_cons] at h
      rcases pre with _ | ⟨x, pre2⟩
      · rw [List.nil_append] at h
        cases h
      · simp only [List.cons_append, List.cons.injEq] at h
        obtain ⟨hx, hrest⟩ := h
        obtain ⟨pre0, hpre0, hor⟩ := ih pre2 d post hrest
        refine ⟨RelayMsg.meta tabId true :: pre0, ?_, ?_⟩
        · subst hx
          rw [hpre0]
          rfl
        · right
          rcases hor with rfl | ⟨pre1, d0, rfl⟩ | ⟨pre1, rfl⟩
          · exact Or.inr ⟨[], rfl⟩
          · exact Or.inl ⟨RelayMsg.meta tabId true :: pre1, d0, rfl⟩
          · exact Or.inr ⟨RelayMsg.meta tabId true :: pre1, rfl⟩

/-- C6 counterexample: the normal stop interleaving.  `recorder.stop()`
queues the last `dataavailable` and then `stop`; `onstop` sends
`final:true` synchronously while the last chunk's send waits on
`event.data.arrayBuffer()`, whose `.then` callback runs after the
already-queued `stop` task.  The wire then carries the `final:true`
envelope *before* the trailing chunk's metadata+binary pair, refuting
the claim that `final:true` is never followed by a binary frame. -/
theorem extension_final_then_binary_counterexample :
    (extRun 5 (extInit true)
      [RecEvent.stopFires, RecEvent.chunkRead [1]]).wire =
      [RelayMsg.meta 5 true, RelayMsg.meta 5 false, RelayMsg.binary [1]] ∧
    ¬ (∀ pre post,
        (extRun 5 (extInit true)
          [RecEvent.stopFires, RecEvent.chunkRead [1]]).wire =
          pre ++ RelayMsg.meta 5 true :: post →
        ∀ d : List Nat, RelayMsg.binary d ∉ post) := by
  refine ⟨rfl, ?_⟩
  intro h
  exact h [] [RelayMsg.meta 5 false, RelayMsg.binary [1]] rfl [1] (by simp)

/-- C6 (amended): every binary frame the extension puts on the wire is
immediately preceded by exactly one `recordingData{tabId, final:false}`
envelope — what precedes that envelope, if anything, is a binary frame
or the `final:true` envelope, never a second `final:false` envelope.
Because `ondataavailable` defers its send to
`event.data.arrayBuffer().then(...)` while `onstop` sends synchronously,
the `final:true` envelope can be followed by such labelled trailing
pairs; and a reconnect flush adds nothing to the wire — it reads the
stale closed `ws` and discards every buffered entry while draining the
buffer. -/
theorem extension_metadata_labels_every_binary (tabId : Nat) (b : Bool) :
    (∀ (evs : List RecEvent) pre (d : List Nat) post,
      (extRun tabId (extInit b) evs).wire = pre ++ RelayMsg.binary d :: post →
      ∃ pre0, pre = pre0 ++ [RelayMsg.meta tabId false] ∧
        (pre0 = [] ∨ (∃ pre1 d0, pre0 = pre1 ++ [RelayMsg.binary d0]) ∨
          (∃ pre1, pre0 = pre1 ++ [RelayMsg.meta tabId true]))) ∧
    (∀ st : ExtRecState,
      (extStep tabId st RecEvent.socketOpens).wire = st.wire ∧
      (extStep tabId st RecEvent.socketOpens).buffer = []) := by
  constructor
  · intro evs pre d post h
    obtain ⟨us, hw⟩ := extRun_wire_units tabId evs (extInit b) ⟨[], rfl⟩
    exact unitsWire_binary_preceded tabId us pre d post (hw ▸ h)
  · intro st
    constructor
    · simp only [extStep]
      rw [flushBuffer_stale, List.append_nil]
    · rfl

/-- Witness for `extension_metadata_labels_every_binary` on a concrete
run: one chunk read completing before the stop fires. -/
theorem extension_metadata_labels_every_binary_witness :
    (extRun 5 (extInit true)
      [RecEvent.chunkRead [1], RecEvent.stopFires]).wire =
      [RelayMsg.meta 5 false] ++ RelayMsg.binary [1] :: [RelayMsg.meta 5 true] ∧
    ∃ pre0, [RelayMsg.meta 5 false] = pre0 ++ [RelayMsg.meta 5 false] ∧
      (pre0 = [] ∨ (∃ pre1 d0, pre0 = pre1 ++ [RelayMsg.binary d0]) ∨
        (∃ pre1, pre0 = pre1 ++ [RelayMsg.meta 5 true])) :=
  ⟨rfl, (extension_metadata_labels_every_binary 5 true).1
    [RecEvent.chunkRead [1], RecEvent.stopFires]
    [RelayMsg.meta 5 false] [1] [RelayMsg.meta 5 true] rfl⟩

end Playwriter
